import Mathlib

/-!
Shallow embedding of the aws-neuron-tensorflow runtime client
(`neuron_clib`/`runtime_grpc`/`tensor_util`) and proofs about its
specification.  Pure data/flow logic is translated from the C++ sources;
interactions with the daemon (gRPC calls) and the operating system are
modelled by explicit environments recording the outcome of each call and
by traces of the calls that were issued.
-/

namespace AwsNeuron

/-- Modelled from the spec: sentinel model id meaning "no model running".
The constant `NRT_INVALID_NN_ID` is declared in `neuron_clib.h`, which is
not part of the sources; only its role as a distinguished sentinel value
matters, so we fix an arbitrary concrete value. -/
def NRT_INVALID_NN_ID : Nat := 0

/-- Outcome environment for the `stop`/`start` RPCs issued by
`NeuronDevice::start_model`: whether each RPC (transport and daemon
status together) succeeds. -/
structure StartStopEnv where
  stopOk : Bool
  startOk : Bool
deriving DecidableEq, Repr

/-- Trace element: one RPC issued to the daemon by the device state
machine. -/
inductive Rpc where
  | stop (nn_id : Nat)
  | start (nn_id : Nat)
  | inferRpc (nn_id : Nat)
deriving DecidableEq, Repr

/-- Run-state of one `NeuronDevice` (execution group), the part of the
object read and written by `start_model`. -/
structure NeuronDeviceState where
  create_eg_done : Bool
  running_nn_id : Nat
deriving DecidableEq, Repr

/-- Translation of `NeuronDevice::running` (part_000 line 568). -/
def NeuronDevice.running (s : NeuronDeviceState) (nn_id : Nat) : Bool :=
  s.running_nn_id == nn_id && NRT_INVALID_NN_ID != s.running_nn_id

/-- Translation of `NeuronDevice::is_busy` (part_000 line 564). -/
def NeuronDevice.is_busy (s : NeuronDeviceState) : Bool :=
  s.running_nn_id != NRT_INVALID_NN_ID

/-- Translation of `NeuronDevice::set_running` (part_000 line 576). -/
def NeuronDevice.set_running (s : NeuronDeviceState) (nn_id : Nat) : NeuronDeviceState :=
  { s with running_nn_id := nn_id }

/-- Second conditional of `NeuronDevice::start_model` (part_000 lines
552-560): if no model is running, issue one `start` RPC for `nn_id` and
record it as running. -/
def NeuronDevice.start_model_step2 (env : StartStopEnv) (s : NeuronDeviceState)
    (nn_id : Nat) (rpcs : List Rpc) :
    Except String Unit × NeuronDeviceState × List Rpc :=
  if ¬ NeuronDevice.is_busy s then
    let rpcs := rpcs ++ [Rpc.start nn_id]
    if ¬ env.startOk then (.error "nrt start failure", s, rpcs)
    else (.ok (), NeuronDevice.set_running s nn_id, rpcs)
  else (.ok (), s, rpcs)

/-- Translation of `NeuronDevice::start_model` (part_000 lines 539-562).
The returned list is the trace of stop/start RPCs issued, in order; a
failed RPC still appears in the trace (it was issued) but aborts the
call with an error and without the state update that follows it in the
source. -/
def NeuronDevice.start_model (env : StartStopEnv) (s : NeuronDeviceState)
    (nn_id : Nat) : Except String Unit × NeuronDeviceState × List Rpc :=
  if ¬ s.create_eg_done then
    (.error "neuron_device is not initialized", s, [])
  else if ¬ NeuronDevice.running s nn_id ∧ NeuronDevice.is_busy s then
    let rpcs := [Rpc.stop s.running_nn_id]
    if ¬ env.stopOk then (.error "nrt stop failure", s, rpcs)
    else
      NeuronDevice.start_model_step2 env
        (NeuronDevice.set_running s NRT_INVALID_NN_ID) nn_id rpcs
  else
    NeuronDevice.start_model_step2 env s nn_id []

/-- Start/stop skeleton of `NeuronDevice::infer` (part_000 lines
396-447): under the group lock it first calls `start_model`, then issues
exactly one `infer` RPC and no further start/stop RPCs.  Payload
handling of the infer RPC is modelled separately (see
`infer_processResponse`). -/
def NeuronDevice.infer_rpcs (env : StartStopEnv) (s : NeuronDeviceState)
    (nn_id : Nat) : Except String Unit × NeuronDeviceState × List Rpc :=
  match NeuronDevice.start_model env s nn_id with
  | (.error e, s1, rpcs) => (.error e, s1, rpcs)
  | (.ok _, s1, rpcs) => (.ok (), s1, rpcs ++ [Rpc.inferRpc nn_id])

/-- Number of `stop` RPCs in a trace. -/
def countStops (rpcs : List Rpc) : Nat :=
  rpcs.countP (fun r => match r with | .stop _ => true | _ => false)

/-- Number of `start` RPCs in a trace. -/
def countStarts (rpcs : List Rpc) : Nat :=
  rpcs.countP (fun r => match r with | .start _ => true | _ => false)

/-- C1: every call to `start_model(nn_id)` issues at most one stop and at
most one start RPC; with the group created and the daemon answering OK:
if a different model is recorded as running, exactly one stop is issued
and the running id is cleared before the start; if no model is running,
exactly one start is issued and `nn_id` is recorded as running; if
`nn_id` is already running, no RPC is issued.  Consequently
`infer(m1)` immediately after `infer(m1)` issues no start/stop RPCs, and
`infer(m2)` after `infer(m1)` issues exactly one stop and one start. -/
theorem start_model_rpc_discipline :
    (∀ (env : StartStopEnv) (s : NeuronDeviceState) (nn_id : Nat),
        countStops (NeuronDevice.start_model env s nn_id).2.2 ≤ 1 ∧
        countStarts (NeuronDevice.start_model env s nn_id).2.2 ≤ 1) ∧
    (∀ (env : StartStopEnv) (s : NeuronDeviceState) (nn_id : Nat),
        env.stopOk = true → env.startOk = true → s.create_eg_done = true →
        (s.running_nn_id ≠ NRT_INVALID_NN_ID → s.running_nn_id ≠ nn_id →
          NeuronDevice.start_model env s nn_id =
            (.ok (), { s with running_nn_id := nn_id },
              [Rpc.stop s.running_nn_id, Rpc.start nn_id])) ∧
        (s.running_nn_id = NRT_INVALID_NN_ID →
          NeuronDevice.start_model env s nn_id =
            (.ok (), { s with running_nn_id := nn_id }, [Rpc.start nn_id])) ∧
        (s.running_nn_id = nn_id → nn_id ≠ NRT_INVALID_NN_ID →
          NeuronDevice.start_model env s nn_id = (.ok (), s, []))) ∧
    (∀ (env : StartStopEnv) (s : NeuronDeviceState) (m1 m2 : Nat),
        env.stopOk = true → env.startOk = true → s.create_eg_done = true →
        m1 ≠ NRT_INVALID_NN_ID → m2 ≠ NRT_INVALID_NN_ID → m2 ≠ m1 →
        ∀ s1 rpcs1, NeuronDevice.infer_rpcs env s m1 = (.ok (), s1, rpcs1) →
          (countStops (NeuronDevice.infer_rpcs env s1 m1).2.2 = 0 ∧
           countStarts (NeuronDevice.infer_rpcs env s1 m1).2.2 = 0) ∧
          (countStops (NeuronDevice.infer_rpcs env s1 m2).2.2 = 1 ∧
           countStarts (NeuronDevice.infer_rpcs env s1 m2).2.2 = 1)) := by
  have hmain : ∀ (env : StartStopEnv) (s : NeuronDeviceState) (nn_id : Nat),
      env.stopOk = true → env.startOk = true → s.create_eg_done = true →
      (s.running_nn_id ≠ NRT_INVALID_NN_ID → s.running_nn_id ≠ nn_id →
        NeuronDevice.start_model env s nn_id =
          (.ok (), { s with running_nn_id := nn_id },
            [Rpc.stop s.running_nn_id, Rpc.start nn_id])) ∧
      (s.running_nn_id = NRT_INVALID_NN_ID →
        NeuronDevice.start_model env s nn_id =
          (.ok (), { s with running_nn_id := nn_id }, [Rpc.start nn_id])) ∧
      (s.running_nn_id = nn_id → nn_id ≠ NRT_INVALID_NN_ID →
        NeuronDevice.start_model env s nn_id = (.ok (), s, [])) := by
    intro env s nn_id hstop hstart hcr
    refine ⟨?_, ?_, ?_⟩
    · intro h1 h2
      simp [NeuronDevice.start_model, NeuronDevice.start_model_step2,
        NeuronDevice.running, NeuronDevice.is_busy, NeuronDevice.set_running,
        hcr, hstop, hstart, h1, h2, Ne.symm h1]
    · intro h1
      simp [NeuronDevice.start_model, NeuronDevice.start_model_step2,
        NeuronDevice.running, NeuronDevice.is_busy, NeuronDevice.set_running,
        hcr, hstop, hstart, h1]
    · intro h1 h2
      simp [NeuronDevice.start_model, NeuronDevice.start_model_step2,
        NeuronDevice.running, NeuronDevice.is_busy, NeuronDevice.set_running,
        hcr, hstop, hstart, h1, h2, Ne.symm h2]
  refine ⟨?_, hmain, ?_⟩
  · intro env s nn_id
    unfold NeuronDevice.start_model NeuronDevice.start_model_step2
    repeat' split
    all_goals simp [countStops, countStarts, List.countP_cons, List.countP_nil]
  · intro env s m1 m2 hstop hstart hcr h1 h2 hne s1 rpcs1 hinf
    have hs1 : s1.running_nn_id = m1 ∧ s1.create_eg_done = true := by
      by_cases hr1 : s.running_nn_id = NRT_INVALID_NN_ID
      · have heq := (hmain env s m1 hstop hstart hcr).2.1 hr1
        rw [NeuronDevice.infer_rpcs, heq] at hinf
        simp [Prod.ext_iff] at hinf
        obtain ⟨hs, -⟩ := hinf
        simp [← hs, hcr]
      · by_cases hr2 : s.running_nn_id = m1
        · have heq := (hmain env s m1 hstop hstart hcr).2.2 hr2 h1
          rw [NeuronDevice.infer_rpcs, heq] at hinf
          simp [Prod.ext_iff] at hinf
          obtain ⟨hs, -⟩ := hinf
          simp [← hs, hcr, hr2]
        · have heq := (hmain env s m1 hstop hstart hcr).1 hr1 hr2
          rw [NeuronDevice.infer_rpcs, heq] at hinf
          simp [Prod.ext_iff] at hinf
          obtain ⟨hs, -⟩ := hinf
          simp [← hs, hcr]
    obtain ⟨hrun1, hcr1⟩ := hs1
    constructor
    · have heq := (hmain env s1 m1 hstop hstart hcr1).2.2 hrun1 h1
      rw [NeuronDevice.infer_rpcs, heq]
      simp [countStops, countStarts, List.countP_cons, List.countP_nil]
    · have heq := (hmain env s1 m2 hstop hstart hcr1).1
        (by rw [hrun1]; exact h1) (by rw [hrun1]; exact Ne.symm hne)
      rw [NeuronDevice.infer_rpcs, heq]
      simp [countStops, countStarts, List.countP_cons, List.countP_nil]

/-- Closed instance of `start_model_rpc_discipline`: a concrete device
that is created with no model running starts model 5 with a single
start RPC. -/
theorem start_model_rpc_discipline_witness :
    NeuronDevice.start_model ⟨true, true⟩ ⟨true, NRT_INVALID_NN_ID⟩ 5 =
      (.ok (), ⟨true, 5⟩, [Rpc.start 5]) :=
  (start_model_rpc_discipline.2.1 ⟨true, true⟩ ⟨true, NRT_INVALID_NN_ID⟩ 5
    rfl rfl rfl).2.1 rfl

/-! Device manager (`NeuronDeviceManager`): group initialization and
round-robin placement.  `device_array_[idx].initialize(nrtd_address_, n)`
is an RPC whose outcome we model by an oracle from (array index,
requested core count) to `none` (success) or `some errorMessage`. -/

/-- Seed status of `NeuronDeviceManager::init_devices` (part_000 line
202), returned when no group could be initialized and no attempt was
made. -/
def INIT_SEED_ERROR : String := "No NeuronCore Group can be initialized."

/-- Result of `NeuronDeviceManager::init_devices`: final status, value of
`num_devices_`, and the list of core counts that were actually attempted
(in order). -/
structure InitResult where
  status : Except String Unit
  num_devices : Nat
  attempts : List Int
deriving Repr

/-- Loop of `NeuronDeviceManager::init_devices` (part_000 lines 203-213):
walk the requested core counts in order, attempt each, stop at the first
failure.  Returns (number of groups created, attempted core counts,
error of the failed attempt if any). -/
def init_devices_go (ok : Nat → Int → Option String) :
    Nat → List Int → Nat × List Int × Option String
  | _, [] => (0, [], none)
  | idx, c :: rest =>
    match ok idx c with
    | some e => (0, [c], some e)
    | none =>
      let r := init_devices_go ok (idx + 1) rest
      (r.1 + 1, c :: r.2.1, r.2.2)

/-- Translation of `NeuronDeviceManager::init_devices` (part_000 lines
201-218): groups are attempted in plan order, the first failure stops
the loop, and the call fails (with the status of the last attempt) only
when zero groups were created. -/
def init_devices (ok : Nat → Int → Option String) (plan : List Int) : InitResult :=
  let r := init_devices_go ok 0 plan
  { status :=
      if r.1 = 0 then
        .error (match r.2.2 with | some e => e | none => INIT_SEED_ERROR)
      else .ok ()
    num_devices := r.1
    attempts := r.2.1 }

/-- Length of the maximal prefix of the plan whose attempts all succeed
(specification-side measure used to state `init_devices_spec`). -/
def okPrefixLen (ok : Nat → Int → Option String) : Nat → List Int → Nat
  | _, [] => 0
  | idx, c :: rest =>
    match ok idx c with
    | some _ => 0
    | none => okPrefixLen ok (idx + 1) rest + 1

theorem init_devices_go_spec (ok : Nat → Int → Option String) :
    ∀ (plan : List Int) (idx : Nat),
      (init_devices_go ok idx plan).1 = okPrefixLen ok idx plan ∧
      (init_devices_go ok idx plan).2.1 = plan.take (okPrefixLen ok idx plan + 1) := by
  intro plan
  induction plan with
  | nil => intro idx; simp [init_devices_go, okPrefixLen]
  | cons c rest ih =>
    intro idx
    cases h : ok idx c with
    | some e => simp [init_devices_go, okPrefixLen, h]
    | none => simp [init_devices_go, okPrefixLen, h, ih (idx + 1)]

/-- C5: `init_devices` attempts groups in plan order; the first failure
stops further attempts but keeps the groups already created; the call
succeeds iff at least one group was created; with zero successes it
returns the error of the (single, first) attempt. -/
theorem init_devices_spec (ok : Nat → Int → Option String) (plan : List Int)
    (hne : plan ≠ []) :
    (init_devices ok plan).num_devices = okPrefixLen ok 0 plan ∧
    (init_devices ok plan).attempts = plan.take (okPrefixLen ok 0 plan + 1) ∧
    ((init_devices ok plan).status = .ok () ↔ 0 < okPrefixLen ok 0 plan) ∧
    (okPrefixLen ok 0 plan = 0 →
      ∃ e, ok 0 plan.headI = some e ∧
        (init_devices ok plan).status = .error e ∧
        (init_devices ok plan).attempts = [plan.headI]) := by
  obtain ⟨c, rest, rfl⟩ : ∃ c rest, plan = c :: rest := by
    cases plan with
    | nil => exact absurd rfl hne
    | cons c rest => exact ⟨c, rest, rfl⟩
  obtain ⟨hnum, hatt⟩ := init_devices_go_spec ok (c :: rest) 0
  refine ⟨?_, ?_, ?_, ?_⟩
  · simpa [init_devices] using hnum
  · simpa [init_devices] using hatt
  · cases h : ok 0 c with
    | some e => simp [init_devices, init_devices_go, okPrefixLen, h]
    | none => simp [init_devices, init_devices_go, okPrefixLen, h]
  · intro h0
    cases h : ok 0 c with
    | some e => exact ⟨e, by simpa using h, by simp [init_devices, init_devices_go, h]⟩
    | none => simp [okPrefixLen, h] at h0

/-- Closed instance of `init_devices_spec`: plan [2, 2] with the second
attempt failing creates one group and still succeeds overall. -/
theorem init_devices_spec_witness :
    (init_devices
        (fun idx _ => if idx = 0 then none else some "nrtd error") [2, 2]).num_devices = 1 ∧
    (init_devices
        (fun idx _ => if idx = 0 then none else some "nrtd error") [2, 2]).status = .ok () := by
  have h := init_devices_spec
    (fun idx _ => if idx = 0 then none else some "nrtd error") [2, 2] (by decide)
  refine ⟨?_, ?_⟩
  · rw [h.1]; rfl
  · rw [h.2.2.1]
    simp [okPrefixLen]

/-- Round-robin cursor state of `NeuronDeviceManager` (fields
`num_devices_` and `device_index_`). -/
structure PoolState where
  num_devices : Nat
  device_index : Nat
deriving DecidableEq, Repr

/-- Translation of the placement part of
`NeuronDeviceManager::apply_for_device` (part_000 lines 286-291): return
the group at the cursor, advance the cursor, wrap to 0 past the last
active group. -/
def apply_for_device (s : PoolState) : Nat × PoolState :=
  let d := s.device_index
  let idx := s.device_index + 1
  (d, { s with device_index := if s.num_devices ≤ idx then 0 else idx })

/-- N successive calls to `apply_for_device`, collecting the returned
group indices. -/
def apply_for_device_n : Nat → PoolState → List Nat × PoolState
  | 0, s => ([], s)
  | n + 1, s =>
    let r := apply_for_device s
    let rs := apply_for_device_n n r.2
    (r.1 :: rs.1, rs.2)

theorem apply_for_device_n_run (M : Nat) (hM : 0 < M) :
    ∀ (n k : Nat), k < M →
      apply_for_device_n n ⟨M, k⟩ =
        ((List.range n).map (fun i => (k + i) % M), ⟨M, (k + n) % M⟩) := by
  intro n
  induction n with
  | zero =>
    intro k hk
    simp [apply_for_device_n, Nat.mod_eq_of_lt hk]
  | succ n ih =>
    intro k hk
    have hstep : apply_for_device ⟨M, k⟩ = (k, ⟨M, (k + 1) % M⟩) := by
      by_cases h : M ≤ k + 1
      · have : k + 1 = M := by omega
        simp [apply_for_device, h, this]
      · simp [apply_for_device, h, Nat.mod_eq_of_lt (by omega : k + 1 < M)]
    have hk1 : (k + 1) % M < M := Nat.mod_lt _ hM
    rw [apply_for_device_n, hstep]
    simp only [ih ((k + 1) % M) hk1]
    refine Prod.ext ?_ ?_
    · show k :: (List.range n).map (fun i => ((k + 1) % M + i) % M) =
        (List.range (n + 1)).map (fun i => (k + i) % M)
      rw [List.range_succ_eq_map, List.map_cons, List.map_map]
      congr 1
      · simp [Nat.mod_eq_of_lt hk]
      · refine List.map_congr_left fun i _ => ?_
        show ((k + 1) % M + i) % M = (k + Nat.succ i) % M
        rw [Nat.mod_add_mod]
        congr 1
        omega
    · show (⟨M, ((k + 1) % M + n) % M⟩ : PoolState) = ⟨M, (k + (n + 1)) % M⟩
      have h : ((k + 1) % M + n) % M = (k + (n + 1)) % M := by
        rw [Nat.mod_add_mod]
        congr 1
        omega
      rw [h]

theorem rr_mod_dvd_iff (M N g : Nat) (hM : 0 < M) (hg : g < M) :
    (M ∣ N + (M - g)) ↔ N % M = g := by
  have hdm : M * (N / M) + N % M = N := Nat.div_add_mod N M
  have hp : M ∣ M * (N / M) := dvd_mul_right M (N / M)
  have hlt : N % M < M := Nat.mod_lt _ hM
  generalize hq : M * (N / M) = p at hdm hp
  constructor
  · intro hdvd
    have heq : N + (M - g) = p + (N % M + (M - g)) := by omega
    rw [heq] at hdvd
    have hdvd2 : M ∣ N % M + (M - g) := (Nat.dvd_add_right hp).mp hdvd
    have ha : N % M + (M - g) ≠ 0 := by omega
    have heq2 : N % M + (M - g) = M :=
      Nat.eq_of_dvd_of_lt_two_mul ha hdvd2 (by omega)
    omega
  · intro hmod
    have heq : N + (M - g) = p + M := by omega
    rw [heq]
    exact Nat.dvd_add hp (dvd_refl M)

theorem rr_count_eq (M g : Nat) (hM : 0 < M) (hg : g < M) :
    ∀ N, ((List.range N).map (fun i => i % M)).count g = (N + (M - 1 - g)) / M := by
  intro N
  induction N with
  | zero =>
    simp [Nat.div_eq_of_lt (show M - 1 - g < M by omega)]
  | succ N ih =>
    rw [List.range_succ, List.map_append, List.count_append]
    have hsingle : (List.map (fun i => i % M) [N]).count g =
        if N % M = g then 1 else 0 := by
      by_cases h : N % M = g <;> simp [List.count_cons, h]
    have key : (N + 1 + (M - 1 - g)) / M =
        (N + (M - 1 - g)) / M + if N % M = g then 1 else 0 := by
      have h1 : N + 1 + (M - 1 - g) = (N + (M - 1 - g)) + 1 := by omega
      rw [h1, Nat.succ_div]
      congr 1
      have h2 : N + (M - 1 - g) + 1 = N + (M - g) := by omega
      rw [h2]
      simp only [rr_mod_dvd_iff M N g hM hg]
    rw [hsingle, ih, key]

/-- C6: starting from cursor 0 with M active groups, N successive
`apply_for_device` calls return group `k % M` at call `k`; every active
group is returned exactly ⌊N/M⌋ or ⌈N/M⌉ times, and after the N calls
the cursor stands at `N % M` (wrapping to 0 past the last group). -/
theorem apply_for_device_round_robin (M N : Nat) (hM : 0 < M) :
    (apply_for_device_n N ⟨M, 0⟩).1 = (List.range N).map (fun i => i % M) ∧
    (apply_for_device_n N ⟨M, 0⟩).2 = ⟨M, N % M⟩ ∧
    ∀ g, g < M →
      ((apply_for_device_n N ⟨M, 0⟩).1.count g = N / M ∨
       (apply_for_device_n N ⟨M, 0⟩).1.count g = (N + M - 1) / M) := by
  have hrun := apply_for_device_n_run M hM N 0 hM
  have hmap : (fun i => (0 + i) % M) = (fun i => i % M) := by
    funext i
    simp
  refine ⟨?_, ?_, ?_⟩
  · rw [hrun, hmap]
  · rw [hrun]
    simp
  · intro g hg
    have hcount : (apply_for_device_n N ⟨M, 0⟩).1.count g = (N + (M - 1 - g)) / M := by
      rw [hrun, hmap]
      exact rr_count_eq M g hM hg N
    rw [hcount]
    have hlow : N / M ≤ (N + (M - 1 - g)) / M :=
      Nat.div_le_div_right (Nat.le_add_right N _)
    have hhigh : (N + (M - 1 - g)) / M ≤ (N + (M - 1)) / M :=
      Nat.div_le_div_right (by omega)
    have hceil : (N + (M - 1)) / M < N / M + 2 := by
      rw [Nat.div_lt_iff_lt_mul hM]
      have h1 : N < N / M * M + M := Nat.lt_div_mul_add hM
      have h2 : (N / M + 2) * M = N / M * M + M + M := by ring
      rw [h2]
      generalize hz : N / M * M = z at h1 ⊢
      omega
    have hNM : N + M - 1 = N + (M - 1) := by omega
    rcases Nat.lt_or_ge ((N + (M - 1 - g)) / M) (N / M + 1) with h | h
    · left
      omega
    · right
      rw [hNM]
      omega

/-- Closed instance of `apply_for_device_round_robin`: 6 calls over 3
groups return 0,1,2,0,1,2 and each group exactly twice. -/
theorem apply_for_device_round_robin_witness :
    (apply_for_device_n 6 ⟨3, 0⟩).1 = [0, 1, 2, 0, 1, 2] ∧
    (apply_for_device_n 6 ⟨3, 0⟩).1.count 1 = 2 := by
  have h := apply_for_device_round_robin 3 6 (by decide)
  refine ⟨by rw [h.1]; decide, ?_⟩
  rcases h.2.2 1 (by decide) with hc | hc <;> exact hc.trans (by decide)

/-- Modelled from the spec: the minimum viable group size probed by the
descending default-sizing search (`MIN_NUM_CORES`, declared in
`neuron_clib.h`, which is not part of the sources). -/
def MIN_NUM_CORES : Nat := 1

/-- Modelled from the spec: the core-count request used when the budget
is out of range, asking the daemon for the largest possible group
(`DEFAULT_NUM_CORES`, declared in `neuron_clib.h`; a negative request
leaves the count unset so the daemon chooses). -/
def DEFAULT_NUM_CORES : Int := -1

/-- Descending-search loop of
`NeuronDeviceManager::init_default_device` (part_000 lines 236-245):
try `num_cores = n, n-1, ...` down to `MIN_NUM_CORES`, returning at the
first success with one device, else falling out of the loop with zero
devices and the status of the last attempt.  Returns (status,
`num_devices_`, attempted core counts in order). -/
def init_default_search (ok : Nat → Int → Option String) (lastErr : String) :
    Nat → Except String Unit × Nat × List Int
  | 0 => (.error lastErr, 0, [])
  | n + 1 =>
    if n + 1 < MIN_NUM_CORES then (.error lastErr, 0, [])
    else
      match ok 0 ((n + 1 : Nat) : Int) with
      | none => (.ok (), 1, [((n + 1 : Nat) : Int)])
      | some e =>
        let r := init_default_search ok e n
        (r.1, r.2.1, ((n + 1 : Nat) : Int) :: r.2.2)

/-- Translation of `NeuronDeviceManager::init_default_device` (part_000
lines 220-249): out-of-range budgets request one largest-possible group;
budget 1 requests four 1-core groups; budget 2 requests two 2-core
groups; any other in-range budget runs the descending search. -/
def init_default_device (ok : Nat → Int → Option String) (opt_device_size : Int) :
    Except String Unit × Nat × List Int :=
  if opt_device_size < 0 ∨ opt_device_size > 64 then
    match ok 0 DEFAULT_NUM_CORES with
    | none => (.ok (), 1, [DEFAULT_NUM_CORES])
    | some e => (.error e, 0, [DEFAULT_NUM_CORES])
  else if opt_device_size = 1 then
    let r := init_devices ok [1, 1, 1, 1]
    (r.status, r.num_devices, r.attempts)
  else if opt_device_size = 2 then
    let r := init_devices ok [2, 2]
    (r.status, r.num_devices, r.attempts)
  else
    init_default_search ok INIT_SEED_ERROR opt_device_size.toNat

theorem desc_map_step (n k : Nat) :
    ((n + 1 : Nat) : Int) :: (List.range k).map (fun i => ((n - i : Nat) : Int)) =
      (List.range (k + 1)).map (fun i => ((n + 1 - i : Nat) : Int)) := by
  rw [List.range_succ_eq_map, List.map_cons, List.map_map]
  refine congrArg₂ List.cons ?_ ?_
  · show ((n + 1 : Nat) : Int) = ((n + 1 - 0 : Nat) : Int)
    congr 1
  · refine List.map_congr_left fun i _ => ?_
    show ((n - i : Nat) : Int) = ((n + 1 - Nat.succ i : Nat) : Int)
    congr 1
    omega

theorem init_default_search_success (ok : Nat → Int → Option String) :
    ∀ (n c : Nat) (lastErr : String), 1 ≤ c → c ≤ n →
      ok 0 (c : Int) = none →
      (∀ d : Nat, c < d → d ≤ n → ok 0 (d : Int) ≠ none) →
      init_default_search ok lastErr n =
        (.ok (), 1, (List.range (n - c + 1)).map (fun i => ((n - i : Nat) : Int))) := by
  intro n
  induction n with
  | zero => intro c lastErr hc hcn; omega
  | succ n ih =>
    intro c lastErr hc hcn hok hfail
    cases htop : ok 0 ((n + 1 : Nat) : Int) with
    | none =>
      have hceq : c = n + 1 := by
        by_contra hne
        exact hfail (n + 1) (by omega) (by omega) htop
      subst hceq
      simp only [init_default_search, htop, MIN_NUM_CORES]
      rw [if_neg (by omega)]
      have h1 : n + 1 - (n + 1) + 1 = 1 := by omega
      rw [h1]
      have hr1 : (List.range 1).map (fun i => ((n + 1 - i : Nat) : Int)) =
          [((n + 1 : Nat) : Int)] := by
        have h0 : List.range 1 = [0] := rfl
        rw [h0, List.map_cons, List.map_nil]
        norm_num
      rw [hr1]
    | some e =>
      have hcn' : c ≤ n := by
        rcases Nat.lt_or_ge c (n + 1) with h | h
        · omega
        · exfalso
          have hceq : c = n + 1 := by omega
          rw [hceq, htop] at hok
          exact Option.noConfusion hok
      simp only [init_default_search, htop, MIN_NUM_CORES]
      rw [if_neg (by omega)]
      rw [ih c e hc hcn' hok (fun d h1 h2 => hfail d h1 (by omega))]
      have hr : n + 1 - c + 1 = (n - c + 1) + 1 := by omega
      rw [hr, ← desc_map_step n (n - c + 1)]

theorem init_default_search_exhaust (ok : Nat → Int → Option String) :
    ∀ (n : Nat) (lastErr : String), 1 ≤ n →
      (∀ c : Nat, 1 ≤ c → c ≤ n → ok 0 (c : Int) ≠ none) →
      ∃ e, ok 0 (1 : Int) = some e ∧
        init_default_search ok lastErr n =
          (.error e, 0, (List.range n).map (fun i => ((n - i : Nat) : Int))) := by
  intro n
  induction n with
  | zero => intro lastErr h; omega
  | succ n ih =>
    intro lastErr hpos hfail
    cases htop : ok 0 ((n + 1 : Nat) : Int) with
    | none => exact absurd htop (hfail (n + 1) (by omega) (by omega))
    | some e' =>
      rcases Nat.eq_zero_or_pos n with hn | hn
      · subst hn
        refine ⟨e', by simpa using htop, ?_⟩
        simp only [init_default_search, htop, MIN_NUM_CORES]
        rw [if_neg (by omega)]
        have hr1 : (List.range 1).map (fun i => ((1 - i : Nat) : Int)) =
            [((0 + 1 : Nat) : Int)] := by
          have h0 : List.range 1 = [0] := rfl
          rw [h0, List.map_cons, List.map_nil]
        rw [hr1]
      · obtain ⟨e, he1, he2⟩ := ih e' hn (fun c h1 h2 => hfail c h1 (by omega))
        refine ⟨e, he1, ?_⟩
        simp only [init_default_search, htop, MIN_NUM_CORES]
        rw [if_neg (by omega)]
        rw [he2, ← desc_map_step n n]

/-- C8: with no explicit sizing list, a core budget of 1 requests four
1-core groups and a budget of 2 requests two 2-core groups (delegating
to `init_devices`); a budget of 0 makes no attempt and fails with the
seeded error; any other in-range budget searches downward from the given
size to `MIN_NUM_CORES`: the first size that succeeds leaves exactly one
active group of that size (having attempted every larger size first),
and exhausting the search leaves zero groups and returns the error of
the last (smallest) attempt. -/
theorem init_default_device_spec (ok : Nat → Int → Option String) :
    (init_default_device ok 1 =
      ((init_devices ok [1, 1, 1, 1]).status, (init_devices ok [1, 1, 1, 1]).num_devices,
        (init_devices ok [1, 1, 1, 1]).attempts)) ∧
    (init_default_device ok 2 =
      ((init_devices ok [2, 2]).status, (init_devices ok [2, 2]).num_devices,
        (init_devices ok [2, 2]).attempts)) ∧
    (init_default_device ok 0 = (.error INIT_SEED_ERROR, 0, [])) ∧
    (∀ n : Nat, 3 ≤ n → n ≤ 64 →
      (∀ c : Nat, 1 ≤ c → c ≤ n → ok 0 (c : Int) = none →
        (∀ d : Nat, c < d → d ≤ n → ok 0 (d : Int) ≠ none) →
        init_default_device ok (n : Int) =
          (.ok (), 1, (List.range (n - c + 1)).map (fun i => ((n - i : Nat) : Int)))) ∧
      ((∀ c : Nat, 1 ≤ c → c ≤ n → ok 0 (c : Int) ≠ none) →
        ∃ e, ok 0 (1 : Int) = some e ∧
          init_default_device ok (n : Int) =
            (.error e, 0, (List.range n).map (fun i => ((n - i : Nat) : Int))))) := by
  have hsearch : ∀ n : Nat, 3 ≤ n → n ≤ 64 →
      init_default_device ok (n : Int) = init_default_search ok INIT_SEED_ERROR n := by
    intro n h3 h64
    unfold init_default_device
    rw [if_neg (by omega), if_neg (by omega), if_neg (by omega), Int.toNat_natCast]
  refine ⟨rfl, rfl, rfl, ?_⟩
  intro n h3 h64
  constructor
  · intro c hc1 hcn hok hfail
    rw [hsearch n h3 h64]
    exact init_default_search_success ok n c INIT_SEED_ERROR hc1 hcn hok hfail
  · intro hfail
    obtain ⟨e, he1, he2⟩ :=
      init_default_search_exhaust ok n INIT_SEED_ERROR (by omega) hfail
    exact ⟨e, he1, by rw [hsearch n h3 h64]; exact he2⟩

/-- Closed instance of `init_default_device_spec`: a budget of 5 with
sizes 5 and 4 failing and 3 succeeding yields one group after attempts
5, 4, 3. -/
theorem init_default_device_spec_witness :
    init_default_device
        (fun _ c => if c = 3 then none else some "create_eg failed") 5 =
      (.ok (), 1, [5, 4, 3]) := by
  have h := ((init_default_device_spec
      (fun _ c => if c = 3 then none else some "create_eg failed")).2.2.2 5
      (by omega) (by omega)).1 3 (by omega) (by omega) rfl
      (by intro d h1 h2; interval_cases d <;> decide)
  have h5 : ((5 : Nat) : Int) = (5 : Int) := by norm_num
  rw [h5] at h
  rw [h]
  have hl : (List.range (5 - 3 + 1)).map (fun i => ((5 - i : Nat) : Int)) =
      [5, 4, 3] := by decide
  rw [hl]

/-! Sizing-list parsing (`NeuronDeviceManager::initialize`, part_000
lines 161-196, and `remove_pattern`, lines 132-142).  The C++
`remove_pattern` reads the local variable `pos` in its own initializer
(`size_t pos = data.find(pattern, pos);`), i.e. the search start index
of every `find` call is an indeterminate (uninitialized) value.  The
embedding makes that explicit: `junk idx` is the indeterminate value
read at loop iteration `idx`. -/

/-- Modelled from the spec: upper bound on parsed sizing-list entries
(`MAX_NUM_CORES`, declared in `neuron_clib.h`, which is not part of the
sources). -/
def MAX_NUM_CORES : Nat := 64

/-- Semantics of `std::string::find(pattern, start)`: smallest position
`p ≥ start` at which `pattern` occurs entirely inside `data`, or `none`
(npos). -/
def strFind (data pattern : List Char) (start : Nat) : Option Nat :=
  (List.range (data.length + 1)).find? (fun p =>
    start ≤ p && p + pattern.length ≤ data.length &&
      decide ((data.drop p).take pattern.length = pattern))

/-- Loop of `remove_pattern` (part_000 lines 134-140): at most
`string_length` iterations (bound taken before the loop), each searching
from the indeterminate start `junk idx` and erasing the first occurrence
found, stopping at the first unsuccessful search. -/
def remove_pattern_go (pattern : List Char) (junk : Nat → Nat) :
    Nat → Nat → List Char → List Char
  | 0, _, data => data
  | fuel + 1, idx, data =>
    match strFind data pattern (junk idx) with
    | none => data
    | some pos =>
      remove_pattern_go pattern junk fuel (idx + 1)
        (data.take pos ++ data.drop (pos + pattern.length))

/-- Translation of `remove_pattern` (part_000 lines 132-142), with the
indeterminate values read by the uninitialized `pos` made explicit as
`junk`. -/
def remove_pattern (data pattern : List Char) (junk : Nat → Nat) : List Char :=
  remove_pattern_go pattern junk data.length 0 data

/-- ASCII whitespace recognized by `std::stoi` (via `isspace`). -/
def isCppSpace (c : Char) : Bool :=
  c = ' ' || c = '\t' || c = '\n' || c = '\r' ||
    c.toNat = 11 || c.toNat = 12

/-- Parse of `std::stoi`: optional whitespace, optional sign, then
base-10 digits; `none` when no digit is found. -/
def stoiParse (cs : List Char) : Option Int :=
  let cs1 := cs.dropWhile isCppSpace
  let sign : Int := match cs1 with
    | '-' :: _ => -1
    | _ => 1
  let cs2 := match cs1 with
    | '-' :: rest => rest
    | '+' :: rest => rest
    | _ => cs1
  let digits := cs2.takeWhile Char.isDigit
  match digits with
  | [] => none
  | _ =>
    some (sign * (digits.foldl
      (fun acc c => acc * 10 + ((c.toNat - '0'.toNat : Nat) : Int)) 0))

/-- Translation of `stoi_no_throw` (part_000 lines 612-620): -1 when
`std::stoi` would throw (no digits, or out of `int` range). -/
def stoi_no_throw (s : List Char) : Int :=
  match stoiParse s with
  | none => -1
  | some v => if v < -2147483648 ∨ v > 2147483647 then -1 else v

/-- Entry loop of `NeuronDeviceManager::initialize` (part_000 lines
172-190): skip empty entries, parse each with `stoi_no_throw`, and on
any entry outside [0, 64] clear the whole vector and stop. -/
def parse_entries_go : List (List Char) → List Int → List Int
  | [], acc => acc
  | e :: rest, acc =>
    if e = [] then parse_entries_go rest acc
    else
      let v := stoi_no_throw e
      if v < 0 ∨ v > 64 then []
      else parse_entries_go rest (acc ++ [v])

/-- Sizing-list resolution of `NeuronDeviceManager::initialize`
(part_000 lines 166-190): remove `[` and `]` (each via `remove_pattern`
with its indeterminate search starts), split on commas (getline), and
parse at most `MAX_NUM_CORES` entries. -/
def parse_group_sizes (raw : List Char) (junk1 junk2 : Nat → Nat) : List Int :=
  let s1 := remove_pattern raw ['['] junk1
  let s2 := remove_pattern s1 [']'] junk2
  parse_entries_go ((s2.splitOn ',').take MAX_NUM_CORES) []

/-- Translation of the group-count resolution of
`NeuronDeviceManager::initialize` (part_000 lines 161-196): an empty or
unusable sizing list falls back to `init_default_device`, otherwise
`init_devices` runs on the parsed plan.  Returns (status,
`num_devices_`). -/
def manager_init_groups (ok : Nat → Int → Option String) (raw : List Char)
    (junk1 junk2 : Nat → Nat) (opt_device_size : Int) :
    Except String Unit × Nat :=
  if raw = [] then
    let r := init_default_device ok opt_device_size
    (r.1, r.2.1)
  else
    let plan := parse_group_sizes raw junk1 junk2
    if plan = [] then
      let r := init_default_device ok opt_device_size
      (r.1, r.2.1)
    else
      let r := init_devices ok plan
      (r.status, r.num_devices)

/-- C7 (bug evidence): the sizing-list resolution of "[1,1,1,1]" depends
on the indeterminate value read by the uninitialized `pos` in
`remove_pattern`.  When every indeterminate search start happens to be
0 the brackets are removed and four 1-core groups are parsed (the
claim's behavior); when it is 9 (or anything past the bracket) the
brackets survive, the first entry "[1" parses to -1, the whole list is
discarded, and the manager falls back to a single default group even
though every creation succeeds. -/
theorem remove_pattern_uninitialized_pos_bug :
    parse_group_sizes "[1,1,1,1]".data (fun _ => 0) (fun _ => 0) = [1, 1, 1, 1] ∧
    parse_group_sizes "[1,1,1,1]".data (fun _ => 9) (fun _ => 9) = [] ∧
    manager_init_groups (fun _ _ => none) "[1,1,1,1]".data
      (fun _ => 0) (fun _ => 0) 65 = (.ok (), 4) ∧
    manager_init_groups (fun _ _ => none) "[1,1,1,1]".data
      (fun _ => 9) (fun _ => 9) 65 = (.ok (), 1) := by
  refine ⟨by decide, by decide, ?_, ?_⟩ <;> rfl

/-! Shared-memory manager teardown (`SharedMemoryManager`, part_000
lines 95-120). -/

/-- Per-direction teardown state of a `SharedMemoryManager`: the
parallel vectors built by `init_vectors` (part_000 lines 65-93).
`input_grpc_names_` holds the names successfully registered with the
daemon; `input_ptrs_`/`input_sizes_` the mapped regions; `input_names_`
the created backing objects (same for outputs). -/
structure SharedMemoryManager where
  input_grpc_names : List String
  input_ptrs : List Nat
  input_sizes : List Nat
  input_names : List String
  output_grpc_names : List String
  output_ptrs : List Nat
  output_sizes : List Nat
  output_names : List String
deriving DecidableEq, Repr

/-- One teardown action of the destructor: a daemon `shm_unmap` RPC
(unregistration), an `munmap` of a mapped region, or an `shm_unlink`
of a backing object. -/
inductive TeardownStep where
  | shm_unmap_rpc (name : String)
  | munmap (ptr : Nat) (size : Nat)
  | shm_unlink (name : String)
deriving DecidableEq, Repr

/-- Translation of `SharedMemoryManager::~SharedMemoryManager`
(part_000 lines 95-120), as the ordered list of teardown actions it
performs: inputs first (unregister all, munmap all, unlink all), then
outputs (same three phases). -/
def SharedMemoryManager.destructor_trace (m : SharedMemoryManager) : List TeardownStep :=
  (m.input_grpc_names.map TeardownStep.shm_unmap_rpc) ++
  ((m.input_ptrs.zip m.input_sizes).map (fun p => TeardownStep.munmap p.1 p.2)) ++
  (m.input_names.map TeardownStep.shm_unlink) ++
  (m.output_grpc_names.map TeardownStep.shm_unmap_rpc) ++
  ((m.output_ptrs.zip m.output_sizes).map (fun p => TeardownStep.munmap p.1 p.2)) ++
  (m.output_names.map TeardownStep.shm_unlink)

/-- Execution of a list of teardown steps under a failure oracle.  In
the destructor every failure is handled by `SYS_FAIL_LOG` /
`NRT_CHECK_LOG`, which log and fall through, so a step's failure adds a
log entry and never stops execution.  Returns (steps actually executed,
log entries). -/
def run_steps (fail : TeardownStep → Bool) : List TeardownStep → List TeardownStep × List String
  | [] => ([], [])
  | s :: rest =>
    let log : List String := if fail s then ["teardown step failed"] else []
    let r := run_steps fail rest
    (s :: r.1, log ++ r.2)

/-- C2 as stated is false: on a manager holding one input buffer and one
output buffer, the destructor unregisters, unmaps and unlinks the input
buffer completely before touching the output buffer; it does not
unregister every output mapping first, nor run three global phases over
both directions. -/
theorem smm_teardown_claim_counterexample :
    SharedMemoryManager.destructor_trace
        ⟨["i"], [10], [4], ["i"], ["o"], [20], [8], ["o"]⟩ =
      [.shm_unmap_rpc "i", .munmap 10 4, .shm_unlink "i",
       .shm_unmap_rpc "o", .munmap 20 8, .shm_unlink "o"] ∧
    SharedMemoryManager.destructor_trace
        ⟨["i"], [10], [4], ["i"], ["o"], [20], [8], ["o"]⟩ ≠
      [.shm_unmap_rpc "o", .shm_unmap_rpc "i", .munmap 20 8, .munmap 10 4,
       .shm_unlink "o", .shm_unlink "i"] :=
  ⟨rfl, by decide⟩

/-- C2 (amended): teardown proceeds direction by direction, inputs
before outputs; within each direction it first unregisters every
mapping (`shm_unmap` RPC), then unmaps every region, then unlinks every
backing object; consequently, for each individual buffer,
unregistration happens before unmapping, which happens before
unlinking; and a failing step only logs — every step is executed under
any failure oracle. -/
theorem smm_teardown_order (m : SharedMemoryManager) (fail : TeardownStep → Bool) :
    (run_steps fail m.destructor_trace).1 = m.destructor_trace ∧
    m.destructor_trace.length =
      m.input_grpc_names.length + (m.input_ptrs.zip m.input_sizes).length +
      m.input_names.length + m.output_grpc_names.length +
      (m.output_ptrs.zip m.output_sizes).length + m.output_names.length ∧
    (∀ i, i < m.input_grpc_names.length →
      m.destructor_trace[i]? =
        (m.input_grpc_names[i]?).map TeardownStep.shm_unmap_rpc) ∧
    (∀ i, i < (m.input_ptrs.zip m.input_sizes).length →
      m.destructor_trace[m.input_grpc_names.length + i]? =
        ((m.input_ptrs.zip m.input_sizes)[i]?).map (fun p => TeardownStep.munmap p.1 p.2)) ∧
    (∀ i, i < m.input_names.length →
      m.destructor_trace[m.input_grpc_names.length +
          (m.input_ptrs.zip m.input_sizes).length + i]? =
        (m.input_names[i]?).map TeardownStep.shm_unlink) ∧
    (∀ i, i < m.output_grpc_names.length →
      m.destructor_trace[m.input_grpc_names.length +
          (m.input_ptrs.zip m.input_sizes).length + m.input_names.length + i]? =
        (m.output_grpc_names[i]?).map TeardownStep.shm_unmap_rpc) ∧
    (∀ i, i < (m.output_ptrs.zip m.output_sizes).length →
      m.destructor_trace[m.input_grpc_names.length +
          (m.input_ptrs.zip m.input_sizes).length + m.input_names.length +
          m.output_grpc_names.length + i]? =
        ((m.output_ptrs.zip m.output_sizes)[i]?).map (fun p => TeardownStep.munmap p.1 p.2)) ∧
    (∀ i, i < m.output_names.length →
      m.destructor_trace[m.input_grpc_names.length +
          (m.input_ptrs.zip m.input_sizes).length + m.input_names.length +
          m.output_grpc_names.length + (m.output_ptrs.zip m.output_sizes).length + i]? =
        (m.output_names[i]?).map TeardownStep.shm_unlink) := by
  have hrun : ∀ steps : List TeardownStep, (run_steps fail steps).1 = steps := by
    intro steps
    induction steps with
    | nil => rfl
    | cons s rest ih => simp [run_steps, ih]
  have hoff : ∀ (xs ys : List TeardownStep) (i : Nat),
      (xs ++ ys)[xs.length + i]? = ys[i]? := by
    intro xs ys i
    rw [List.getElem?_append_right (Nat.le_add_right _ _)]
    congr 1
    omega
  refine ⟨hrun _, ?_, ?_, ?_, ?_, ?_, ?_, ?_⟩
  · simp [SharedMemoryManager.destructor_trace]
    omega
  · intro i hi
    simp only [SharedMemoryManager.destructor_trace, List.append_assoc]
    rw [List.getElem?_append_left (by simpa using hi)]
    simp [List.getElem?_map]
  · intro i hi
    simp only [SharedMemoryManager.destructor_trace, List.append_assoc]
    rw [show m.input_grpc_names.length + i =
        (m.input_grpc_names.map TeardownStep.shm_unmap_rpc).length + i by
      rw [List.length_map]]
    rw [hoff]
    rw [List.getElem?_append_left (by simpa using hi)]
    simp [List.getElem?_map]
  · intro i hi
    simp only [SharedMemoryManager.destructor_trace, List.append_assoc]
    rw [show m.input_grpc_names.length + (m.input_ptrs.zip m.input_sizes).length + i =
        (m.input_grpc_names.map TeardownStep.shm_unmap_rpc).length +
          (((m.input_ptrs.zip m.input_sizes).map
            (fun p => TeardownStep.munmap p.1 p.2)).length + i) by
      simp [List.length_map]
      omega]
    rw [hoff, hoff]
    rw [List.getElem?_append_left (by simpa using hi)]
    simp [List.getElem?_map]
  · intro i hi
    simp only [SharedMemoryManager.destructor_trace, List.append_assoc]
    rw [show m.input_grpc_names.length + (m.input_ptrs.zip m.input_sizes).length +
          m.input_names.length + i =
        (m.input_grpc_names.map TeardownStep.shm_unmap_rpc).length +
          (((m.input_ptrs.zip m.input_sizes).map
            (fun p => TeardownStep.munmap p.1 p.2)).length +
            ((m.input_names.map TeardownStep.shm_unlink).length + i)) by
      simp [List.length_map]
      omega]
    rw [hoff, hoff, hoff]
    rw [List.getElem?_append_left (by simpa using hi)]
    simp [List.getElem?_map]
  · intro i hi
    simp only [SharedMemoryManager.destructor_trace, List.append_assoc]
    rw [show m.input_grpc_names.length + (m.input_ptrs.zip m.input_sizes).length +
          m.input_names.length + m.output_grpc_names.length + i =
        (m.input_grpc_names.map TeardownStep.shm_unmap_rpc).length +
          (((m.input_ptrs.zip m.input_sizes).map
            (fun p => TeardownStep.munmap p.1 p.2)).length +
            ((m.input_names.map TeardownStep.shm_unlink).length +
              ((m.output_grpc_names.map TeardownStep.shm_unmap_rpc).length + i))) by
      simp [List.length_map]
      omega]
    rw [hoff, hoff, hoff, hoff]
    rw [List.getElem?_append_left (by simpa using hi)]
    simp [List.getElem?_map]
  · intro i hi
    simp only [SharedMemoryManager.destructor_trace, List.append_assoc]
    rw [show m.input_grpc_names.length + (m.input_ptrs.zip m.input_sizes).length +
          m.input_names.length + m.output_grpc_names.length +
          (m.output_ptrs.zip m.output_sizes).length + i =
        (m.input_grpc_names.map TeardownStep.shm_unmap_rpc).length +
          (((m.input_ptrs.zip m.input_sizes).map
            (fun p => TeardownStep.munmap p.1 p.2)).length +
            ((m.input_names.map TeardownStep.shm_unlink).length +
              ((m.output_grpc_names.map TeardownStep.shm_unmap_rpc).length +
                (((m.output_ptrs.zip m.output_sizes).map
                  (fun p => TeardownStep.munmap p.1 p.2)).length + i)))) by
      simp [List.length_map]
      omega]
    rw [hoff, hoff, hoff, hoff, hoff]
    simp [List.getElem?_map]

/-- Closed instance of `smm_teardown_order`: with one buffer in each
direction and every step failing, all six steps still execute and the
input unregistration sits at position 0. -/
theorem smm_teardown_order_witness :
    (run_steps (fun _ => true)
        (SharedMemoryManager.destructor_trace
          ⟨["i"], [10], [4], ["i"], ["o"], [20], [8], ["o"]⟩)).1 =
      SharedMemoryManager.destructor_trace
        ⟨["i"], [10], [4], ["i"], ["o"], [20], [8], ["o"]⟩ ∧
    (SharedMemoryManager.destructor_trace
        ⟨["i"], [10], [4], ["i"], ["o"], [20], [8], ["o"]⟩)[0]? =
      some (TeardownStep.shm_unmap_rpc "i") :=
  ⟨(smm_teardown_order ⟨["i"], [10], [4], ["i"], ["o"], [20], [8], ["o"]⟩
      (fun _ => true)).1,
   by
    have h := (smm_teardown_order ⟨["i"], [10], [4], ["i"], ["o"], [20], [8], ["o"]⟩
      (fun _ => true)).2.2.1 0 (by decide)
    simpa using h⟩

/-! Streamed model load (`NeuronDevice::load`, part_000 lines 322-368;
the same streaming body appears in `RuntimeGRPC::load`, part_001 lines
56-101). -/

/-- Modelled from the spec: the fixed maximum chunk size of a streamed
load (`EXEC_MAX_CHUNK_SIZE`, declared in `neuron_clib.h`; the spec
bounds chunks at 2 MiB). -/
def EXEC_MAX_CHUNK_SIZE : Nat := 2 * 1024 * 1024

/-- One `nrt::load_request` message, as the cumulative snapshot of the
protobuf fields set so far (the C++ reuses one `request` object across
writes, so later messages still carry the earlier fields). -/
structure LoadRequest where
  h_eg : Option Nat
  neff_size : Option Nat
  model_params : Option (Nat × Nat)
  neff_chunk : Option (List Nat)
deriving DecidableEq, Repr

/-- Outcome environment of one streamed load: whether the k-th
`writer->Write` succeeds, whether `WritesDone` succeeds, whether
`Finish` plus the daemon status check succeed, and the model id carried
by the response. -/
structure LoadEnv where
  writeOk : Nat → Bool
  writesDoneOk : Bool
  finishOk : Bool
  responseNnId : Nat

/-- Chunking loop of `load` (part_000 lines 352-358): chunk `i` is the
slice of at most `c` bytes starting at `pos = i * c`. -/
def chunkList (exec : List Nat) (c : Nat) : List (List Nat) :=
  (List.range ((exec.length + c - 1) / c)).map (fun i => (exec.drop (i * c)).take c)

/-- The full intended message sequence of one load: the group handle,
then the executable byte count, then the model parameters, then one
message per chunk. -/
def load_requests (eg_id : Nat) (exec : List Nat) (timeout ninfer : Nat) :
    List LoadRequest :=
  [⟨some eg_id, none, none, none⟩,
   ⟨some eg_id, some exec.length, none, none⟩,
   ⟨some eg_id, some exec.length, some (timeout, ninfer), none⟩] ++
  (chunkList exec EXEC_MAX_CHUNK_SIZE).map
    (fun ch => ⟨some eg_id, some exec.length, some (timeout, ninfer), some ch⟩)

/-- Sequential stream writes: each message is attempted once, in order,
stopping at the first failed write (`WRITE_LOAD_REQUEST` returns
immediately on failure; nothing is retried).  Returns (all writes
succeeded, messages actually written). -/
def write_seq (writeOk : Nat → Bool) : Nat → List LoadRequest → Bool × List LoadRequest
  | _, [] => (true, [])
  | k, msg :: rest =>
    if writeOk k then
      let r := write_seq writeOk (k + 1) rest
      (r.1, msg :: r.2)
    else (false, [])

/-- Result of `NeuronDevice::load`: the returned status (carrying the
new model id on success, as written to `*nn_id`), the messages actually
streamed, and the device's `nn_id_set_` afterwards. -/
structure LoadResult where
  status : Except String Nat
  written : List LoadRequest
  nn_id_set : List Nat
deriving Repr

/-- Translation of `NeuronDevice::load` (part_000 lines 322-368): write
the group handle, the byte count, the model parameters, then the
chunks; any failed write, a failed `WritesDone`, or a failed `Finish`
aborts with an internal error before the model id is produced or the
loaded set is touched; on success the response's id is recorded and
returned. -/
def NeuronDevice.load (env : LoadEnv) (eg_id : Nat) (nn_id_set : List Nat)
    (exec : List Nat) (timeout ninfer : Nat) : LoadResult :=
  let msgs := load_requests eg_id exec timeout ninfer
  let w := write_seq env.writeOk 0 msgs
  if ¬ w.1 then
    { status := .error "neuron-rtd load failure - broken stream",
      written := w.2, nn_id_set := nn_id_set }
  else if ¬ env.writesDoneOk then
    { status := .error "neuron-rtd load failure - broken stream",
      written := w.2, nn_id_set := nn_id_set }
  else if ¬ env.finishOk then
    { status := .error "nrt load failure",
      written := w.2, nn_id_set := nn_id_set }
  else
    { status := .ok env.responseNnId, written := w.2,
      nn_id_set := nn_id_set.insert env.responseNnId }

theorem write_seq_all (writeOk : Nat → Bool) :
    ∀ (msgs : List LoadRequest) (k : Nat),
      (∀ j, j < msgs.length → writeOk (k + j) = true) →
      write_seq writeOk k msgs = (true, msgs) := by
  intro msgs
  induction msgs with
  | nil => intro k _; rfl
  | cons m rest ih =>
    intro k h
    have h0 : writeOk k = true := by simpa using h 0 (by simp)
    have hrest := ih (k + 1) (fun j hj => by
      have hh := h (j + 1) (by simpa using Nat.succ_lt_succ hj)
      have he : k + 1 + j = k + (j + 1) := by omega
      rw [he]
      exact hh)
    simp [write_seq, h0, hrest]

theorem write_seq_fail (writeOk : Nat → Bool) :
    ∀ (msgs : List LoadRequest) (k i : Nat), i < msgs.length →
      (∀ j, j < i → writeOk (k + j) = true) → writeOk (k + i) = false →
      write_seq writeOk k msgs = (false, msgs.take i) := by
  intro msgs
  induction msgs with
  | nil => intro k i hi; simp at hi
  | cons m rest ih =>
    intro k i hi hgood hbad
    cases i with
    | zero =>
      simp only [Nat.add_zero] at hbad
      simp [write_seq, hbad]
    | succ i =>
      have h0 : writeOk k = true := by simpa using hgood 0 (by omega)
      have hrest := ih (k + 1) i (by simpa using Nat.lt_of_succ_lt_succ hi)
        (fun j hj => by
          have hh := hgood (j + 1) (by omega)
          have he : k + 1 + j = k + (j + 1) := by omega
          rw [he]
          exact hh)
        (by
          have he : k + 1 + i = k + (i + 1) := by omega
          rw [he]
          exact hbad)
      simp [write_seq, h0, hrest]

theorem chunkList_flatten_take (exec : List Nat) (c : Nat) :
    ∀ n, ((List.range n).map (fun i => (exec.drop (i * c)).take c)).flatten =
      exec.take (n * c) := by
  intro n
  induction n with
  | zero => simp
  | succ n ih =>
    rw [List.range_succ, List.map_append, List.flatten_append, ih]
    have : (n + 1) * c = n * c + c := by ring
    rw [this, List.take_add]
    simp

theorem chunkList_flatten (exec : List Nat) (c : Nat) (hc : 0 < c) :
    (chunkList exec c).flatten = exec := by
  rw [chunkList, chunkList_flatten_take]
  refine List.take_of_length_le ?_
  have h1 := Nat.lt_div_mul_add (a := exec.length + c - 1) hc
  generalize hz : (exec.length + c - 1) / c * c = z at h1 ⊢
  omega

theorem chunkList_length_le (exec : List Nat) (c : Nat) :
    ∀ ch ∈ chunkList exec c, ch.length ≤ c := by
  intro ch hch
  rw [chunkList, List.mem_map] at hch
  obtain ⟨i, -, rfl⟩ := hch
  simp [List.length_take]

/-- C3: a load streams, in order, the group handle, the executable byte
count, the model parameters, and the executable split into chunks of at
most `EXEC_MAX_CHUNK_SIZE` bytes whose concatenation is exactly the
executable; if every stream operation succeeds the response id is
returned and added to the loaded set; if the k-th write fails, exactly
the first k messages were written, nothing is retried, the call returns
an internal error, no model id is produced and the loaded set is
unchanged; a failed `WritesDone` or a failed `Finish` likewise returns
an error with the set unchanged. -/
theorem load_stream_spec (env : LoadEnv) (eg_id : Nat) (nn_id_set : List Nat)
    (exec : List Nat) (timeout ninfer : Nat) :
    ((chunkList exec EXEC_MAX_CHUNK_SIZE).flatten = exec ∧
      ∀ ch ∈ chunkList exec EXEC_MAX_CHUNK_SIZE, ch.length ≤ EXEC_MAX_CHUNK_SIZE) ∧
    ((∀ j, j < (load_requests eg_id exec timeout ninfer).length →
        env.writeOk j = true) → env.writesDoneOk = true → env.finishOk = true →
      NeuronDevice.load env eg_id nn_id_set exec timeout ninfer =
        { status := .ok env.responseNnId,
          written := load_requests eg_id exec timeout ninfer,
          nn_id_set := nn_id_set.insert env.responseNnId }) ∧
    (∀ k, k < (load_requests eg_id exec timeout ninfer).length →
      (∀ j, j < k → env.writeOk j = true) → env.writeOk k = false →
      NeuronDevice.load env eg_id nn_id_set exec timeout ninfer =
        { status := .error "neuron-rtd load failure - broken stream",
          written := (load_requests eg_id exec timeout ninfer).take k,
          nn_id_set := nn_id_set }) ∧
    ((∀ j, j < (load_requests eg_id exec timeout ninfer).length →
        env.writeOk j = true) → env.writesDoneOk = false →
      NeuronDevice.load env eg_id nn_id_set exec timeout ninfer =
        { status := .error "neuron-rtd load failure - broken stream",
          written := load_requests eg_id exec timeout ninfer,
          nn_id_set := nn_id_set }) ∧
    ((∀ j, j < (load_requests eg_id exec timeout ninfer).length →
        env.writeOk j = true) → env.writesDoneOk = true → env.finishOk = false →
      NeuronDevice.load env eg_id nn_id_set exec timeout ninfer =
        { status := .error "nrt load failure",
          written := load_requests eg_id exec timeout ninfer,
          nn_id_set := nn_id_set }) := by
  refine ⟨⟨chunkList_flatten exec _ (by norm_num [EXEC_MAX_CHUNK_SIZE]),
    chunkList_length_le exec _⟩, ?_, ?_, ?_, ?_⟩
  · intro hw hd hf
    have hws := write_seq_all env.writeOk (load_requests eg_id exec timeout ninfer) 0
      (fun j hj => by simpa using hw j hj)
    simp [NeuronDevice.load, hws, hd, hf]
  · intro k hk hgood hbad
    have hws := write_seq_fail env.writeOk (load_requests eg_id exec timeout ninfer) 0
      k hk (fun j hj => by simpa using hgood j hj) (by simpa using hbad)
    simp [NeuronDevice.load, hws]
  · intro hw hd
    have hws := write_seq_all env.writeOk (load_requests eg_id exec timeout ninfer) 0
      (fun j hj => by simpa using hw j hj)
    simp [NeuronDevice.load, hws, hd]
  · intro hw hd hf
    have hws := write_seq_all env.writeOk (load_requests eg_id exec timeout ninfer) 0
      (fun j hj => by simpa using hw j hj)
    simp [NeuronDevice.load, hws, hd, hf]

/-- Closed instance of `load_stream_spec`: the stream write of the first
chunk (message index 3) fails, so the three header messages were
written, the call returns the broken-stream error, and the loaded set
is unchanged. -/
theorem load_stream_spec_witness :
    NeuronDevice.load ⟨fun k => k != 3, true, true, 42⟩ 9 [1] [7, 7, 7, 7, 7] 10 2 =
      { status := .error "neuron-rtd load failure - broken stream",
        written := (load_requests 9 [7, 7, 7, 7, 7] 10 2).take 3,
        nn_id_set := [1] } := by
  refine (load_stream_spec ⟨fun k => k != 3, true, true, 42⟩ 9 [1]
    [7, 7, 7, 7, 7] 10 2).2.2.1 3 (by decide) ?_ (by decide)
  intro j hj
  interval_cases j <;> decide

/-! Byte-copy utilities (`src/runtime/tensor_util.cc`).  Buffers are
byte maps `Nat → Nat` indexed from the start of the copy region; the
source and destination are distinct maps (the buffers do not overlap).
The numeric pointer values `srcAddr`/`dstAddr` enter only the alignment
tests.  Word accesses (`memcpy_uint64`/`memcpy_uint32`) are modelled as
little-endian reads and writes of whole words over the byte maps, so
their agreement with a plain byte copy is proved, not assumed. -/

/-- Byte-level semantics of `std::memcpy` / `std::copy_n` on disjoint
buffers: copy `n` bytes starting at offset `a`. -/
def byteCopyAt (src dst : Nat → Nat) (a n : Nat) : Nat → Nat :=
  fun i => if a ≤ i ∧ i < a + n then src i else dst i

/-- Little-endian word of `w` bytes read at byte offset `base` (the
type-punned load `*ss` in `memcpy_uint64`/`memcpy_uint32`). -/
def readWord (f : Nat → Nat) : Nat → Nat → Nat
  | _, 0 => 0
  | base, w + 1 => f base + 256 * readWord f (base + 1) w

/-- Little-endian store of the `w`-byte word `v` at byte offset `base`
(the type-punned store `*dd = ...`). -/
def writeWord (f : Nat → Nat) (w base v : Nat) : Nat → Nat :=
  fun i => if base ≤ i ∧ i < base + w then v / 256 ^ (i - base) % 256 else f i

/-- The loop `while (size--) *dd++ = *ss++;` of
`memcpy_uint64`/`memcpy_uint32` (tensor_util.cc lines 26-40): copy `n`
words of `w` bytes starting at byte offset `base`. -/
def copyWords (src : Nat → Nat) (w base : Nat) (dst : Nat → Nat) : Nat → Nat → Nat
  | 0 => dst
  | n + 1 =>
    writeWord (copyWords src w base dst n) w (base + n * w)
      (readWord src (base + n * w) w)

/-- Translation of `memcpy_uint64` (tensor_util.cc lines 26-32): the
byte count is truncated to whole 8-byte words
(`size = size * sizeof(uint8_t) / sizeof(uint64_t)`). -/
def memcpy_uint64 (dst src : Nat → Nat) (base size : Nat) : Nat → Nat :=
  copyWords src 8 base dst (size / 8)

/-- Translation of `memcpy_uint32` (tensor_util.cc lines 34-40). -/
def memcpy_uint32 (dst src : Nat → Nat) (base size : Nat) : Nat → Nat :=
  copyWords src 4 base dst (size / 4)

/-- One shard of the parallel branch of `fast_memcpy` (tensor_util.cc
lines 86-93): shard `idx` copies `vec_slice_size[idx]` bytes at offset
`idx * slice_size` with `vec_memcpy_func[idx]` (the word copy when the
buffers were aligned, except that a misaligned last slice falls back to
`std::memcpy`). -/
def shard_copy (src : Nat → Nat) (alignment : Nat) (useWords : Bool)
    (slice_size last_slice_size : Nat) (dst : Nat → Nat) (idx : Nat) : Nat → Nat :=
  let offset := idx * slice_size
  if idx = 7 then
    if useWords ∧ last_slice_size % alignment = 0 then
      copyWords src alignment offset dst (last_slice_size / alignment)
    else byteCopyAt src dst offset last_slice_size
  else
    if useWords then copyWords src alignment offset dst (slice_size / alignment)
    else byteCopyAt src dst offset slice_size

/-- Execution of the first `n` shards.  The shards write pairwise
disjoint byte ranges, so `thread_pool->ParallelFor` produces the same
final buffer as this sequential fold regardless of how the index range
is partitioned among threads. -/
def run_shards (src : Nat → Nat) (alignment : Nat) (useWords : Bool)
    (slice_size last_slice_size : Nat) (dst : Nat → Nat) : Nat → Nat → Nat
  | 0 => dst
  | n + 1 =>
    shard_copy src alignment useWords slice_size last_slice_size
      (run_shards src alignment useWords slice_size last_slice_size dst n) n

/-- Translation of `fast_memcpy` (tensor_util.cc lines 44-96): small
copies go byte-for-byte; medium copies (or no thread pool) use an
aligned word copy with a byte remainder; large copies with a pool split
the buffer into 8 parallel slices. -/
def fast_memcpy (hasPool : Bool) (dstAddr srcAddr : Nat) (dst src : Nat → Nat)
    (total : Nat) : Nat → Nat :=
  if total < 1024 then
    byteCopyAt src dst 0 total
  else if total ≤ 1024 * 1024 * 4 ∨ ¬ hasPool then
    if srcAddr % 8 = 0 ∧ dstAddr % 8 = 0 then
      let copy_size := total / 8 * 8
      let d := memcpy_uint64 dst src 0 copy_size
      if copy_size ≠ total then byteCopyAt src d copy_size (total - copy_size) else d
    else if srcAddr % 4 = 0 ∧ dstAddr % 4 = 0 then
      let copy_size := total / 4 * 4
      let d := memcpy_uint32 dst src 0 copy_size
      if copy_size ≠ total then byteCopyAt src d copy_size (total - copy_size) else d
    else
      byteCopyAt src dst 0 total
  else
    let alignment : Nat :=
      if srcAddr % 8 = 0 ∧ dstAddr % 8 = 0 then 8
      else if srcAddr % 4 = 0 ∧ dstAddr % 4 = 0 then 4
      else 1
    let useWords : Bool := decide (1 < alignment)
    let slice_size := total / 8 - total / 8 % alignment
    let last_slice_size := total - slice_size * 7
    run_shards src alignment useWords slice_size last_slice_size dst 8

/-- The slice sizes of the parallel branch
(`vec_slice_size`, tensor_util.cc lines 79-80): seven slices of
`slice_size` and one last slice absorbing the remainder. -/
def vec_slice_size (total alignment : Nat) : List Nat :=
  let slice_size := total / 8 - total / 8 % alignment
  List.replicate 7 slice_size ++ [total - slice_size * 7]

theorem readWord_extract (f : Nat → Nat) (hf : ∀ i, f i < 256) :
    ∀ (w base j : Nat), j < w →
      readWord f base w / 256 ^ j % 256 = f (base + j) := by
  intro w
  induction w with
  | zero => intro base j hj; omega
  | succ w ih =>
    intro base j hj
    cases j with
    | zero =>
      simp only [readWord, pow_zero, Nat.div_one]
      rw [Nat.mul_comm 256, Nat.add_mul_mod_self_right, Nat.mod_eq_of_lt (hf base),
        Nat.add_zero]
    | succ j =>
      simp only [readWord]
      rw [pow_succ, Nat.mul_comm (256 ^ j) 256, ← Nat.div_div_eq_div_mul]
      have hdiv : (f base + 256 * readWord f (base + 1) w) / 256 =
          readWord f (base + 1) w := by
        rw [Nat.add_mul_div_left _ _ (by norm_num : 0 < 256),
          Nat.div_eq_of_lt (hf base)]
        omega
      rw [hdiv, ih (base + 1) j (by omega)]
      congr 1
      omega

theorem copyWords_eq (src dst : Nat → Nat) (w base : Nat) (hw : 0 < w)
    (hsrc : ∀ i, src i < 256) :
    ∀ n, copyWords src w base dst n = byteCopyAt src dst base (n * w) := by
  intro n
  induction n with
  | zero =>
    funext i
    show dst i = byteCopyAt src dst base (0 * w) i
    rw [byteCopyAt]
    rw [if_neg (by omega)]
  | succ n ih =>
    have hmul : (n + 1) * w = n * w + w := by ring
    funext i
    show writeWord (copyWords src w base dst n) w (base + n * w)
        (readWord src (base + n * w) w) i = byteCopyAt src dst base ((n + 1) * w) i
    rw [ih, hmul]
    set m := n * w with hm
    by_cases hin : base + m ≤ i ∧ i < base + m + w
    · simp only [writeWord, byteCopyAt]
      rw [if_pos hin]
      have hext := readWord_extract src hsrc w (base + m) (i - (base + m)) (by omega)
      rw [hext]
      have harg : base + m + (i - (base + m)) = i := by omega
      rw [harg, if_pos (by omega)]
    · simp only [writeWord, byteCopyAt]
      rw [if_neg hin]
      by_cases h2 : base ≤ i ∧ i < base + m
      · rw [if_pos h2, if_pos (by omega)]
      · rw [if_neg h2, if_neg (by omega)]

theorem byteCopyAt_chain (src dst : Nat → Nat) (a b : Nat) :
    byteCopyAt src (byteCopyAt src dst 0 a) a b = byteCopyAt src dst 0 (a + b) := by
  funext i
  simp only [byteCopyAt]
  by_cases h1 : a ≤ i ∧ i < a + b
  · rw [if_pos h1, if_pos (by omega)]
  · rw [if_neg h1]
    by_cases h2 : 0 ≤ i ∧ i < 0 + a
    · rw [if_pos h2, if_pos (by omega)]
    · rw [if_neg h2, if_neg (by omega)]

theorem run_shards_first7 (src dst : Nat → Nat) (alignment : Nat) (useWords : Bool)
    (slice last : Nat) (hsrc : ∀ i, src i < 256) (halign : 0 < alignment)
    (hslice : slice % alignment = 0) :
    ∀ n, n ≤ 7 →
      run_shards src alignment useWords slice last dst n =
        byteCopyAt src dst 0 (n * slice) := by
  intro n
  induction n with
  | zero =>
    intro _
    funext i
    show dst i = byteCopyAt src dst 0 (0 * slice) i
    rw [byteCopyAt, if_neg (by omega)]
  | succ n ih =>
    intro hn
    have hne7 : ¬ (n = 7) := by omega
    show shard_copy src alignment useWords slice last
        (run_shards src alignment useWords slice last dst n) n =
      byteCopyAt src dst 0 ((n + 1) * slice)
    rw [ih (by omega)]
    have hmul : (n + 1) * slice = n * slice + slice := by ring
    rw [hmul]
    simp only [shard_copy]
    rw [if_neg hne7]
    cases hw : useWords with
    | true =>
      rw [if_pos rfl]
      rw [copyWords_eq src _ alignment (n * slice) halign hsrc]
      rw [Nat.div_mul_cancel (Nat.dvd_of_mod_eq_zero hslice)]
      exact byteCopyAt_chain src dst (n * slice) slice
    | false =>
      rw [if_neg (by simp)]
      exact byteCopyAt_chain src dst (n * slice) slice

theorem run_shards_full (src dst : Nat → Nat) (alignment : Nat) (useWords : Bool)
    (slice total : Nat) (hsrc : ∀ i, src i < 256) (halign : 0 < alignment)
    (hslice : slice % alignment = 0) (h7 : slice * 7 ≤ total) :
    run_shards src alignment useWords slice (total - slice * 7) dst 8 =
      byteCopyAt src dst 0 total := by
  show shard_copy src alignment useWords slice (total - slice * 7)
      (run_shards src alignment useWords slice (total - slice * 7) dst 7) 7 = _
  rw [run_shards_first7 src dst alignment useWords slice _ hsrc halign hslice 7
    (le_refl 7)]
  simp only [shard_copy]
  rw [if_pos trivial]
  by_cases hcase : useWords = true ∧ (total - slice * 7) % alignment = 0
  · rw [if_pos hcase]
    rw [copyWords_eq src _ alignment (7 * slice) halign hsrc]
    rw [Nat.div_mul_cancel (Nat.dvd_of_mod_eq_zero hcase.2)]
    rw [byteCopyAt_chain]
    have harg : 7 * slice + (total - slice * 7) = total := by omega
    rw [harg]
  · rw [if_neg hcase, byteCopyAt_chain]
    have harg : 7 * slice + (total - slice * 7) = total := by omega
    rw [harg]

theorem sub_mod_self_mod (x a : Nat) : (x - x % a) % a = 0 := by
  rcases Nat.eq_zero_or_pos a with ha | ha
  · subst ha
    simp [Nat.mod_zero]
  · have hdm : a * (x / a) + x % a = x := Nat.div_add_mod x a
    have hx : x - x % a = a * (x / a) := by omega
    rw [hx]
    exact Nat.mul_mod_right a _

theorem slice_le_total (total a : Nat) : (total / 8 - total / 8 % a) * 7 ≤ total := by
  have hs : total / 8 - total / 8 % a ≤ total / 8 := Nat.sub_le _ _
  have hq : total / 8 * 8 ≤ total := Nat.div_mul_le_self total 8
  set r := total / 8 % a with hr
  omega

theorem mid_word_branch_eq (src dst : Nat → Nat) (w total : Nat) (hw : 0 < w)
    (hsrc : ∀ i, src i < 256) :
    (if total / w * w ≠ total then
        byteCopyAt src (copyWords src w 0 dst (total / w * w / w)) (total / w * w)
          (total - total / w * w)
      else copyWords src w 0 dst (total / w * w / w)) =
      byteCopyAt src dst 0 total := by
  have hdc : total / w * w / w = total / w := Nat.mul_div_cancel _ hw
  have hcw := copyWords_eq src dst w 0 hw hsrc (total / w)
  have hle : total / w * w ≤ total := Nat.div_mul_le_self total w
  by_cases hne : total / w * w ≠ total
  · rw [if_pos hne, hdc, hcw, byteCopyAt_chain]
    have harg : total / w * w + (total - total / w * w) = total := by
      generalize hz : total / w * w = z at hle ⊢
      omega
    rw [harg]
  · rw [if_neg hne, hdc, hcw]
    push_neg at hne
    rw [hne]

theorem fast_memcpy_eq (hasPool : Bool) (dstAddr srcAddr : Nat) (dst src : Nat → Nat)
    (total : Nat) (hsrc : ∀ i, src i < 256) :
    fast_memcpy hasPool dstAddr srcAddr dst src total = byteCopyAt src dst 0 total := by
  unfold fast_memcpy
  by_cases h1 : total < 1024
  · rw [if_pos h1]
  · rw [if_neg h1]
    by_cases h2 : total ≤ 1024 * 1024 * 4 ∨ ¬ hasPool
    · rw [if_pos h2]
      by_cases h8 : srcAddr % 8 = 0 ∧ dstAddr % 8 = 0
      · rw [if_pos h8]
        dsimp only [memcpy_uint64]
        exact mid_word_branch_eq src dst 8 total (by norm_num) hsrc
      · rw [if_neg h8]
        by_cases h4 : srcAddr % 4 = 0 ∧ dstAddr % 4 = 0
        · rw [if_pos h4]
          dsimp only [memcpy_uint32]
          exact mid_word_branch_eq src dst 4 total (by norm_num) hsrc
        · rw [if_neg h4]
    · rw [if_neg h2]
      dsimp only
      by_cases h8 : srcAddr % 8 = 0 ∧ dstAddr % 8 = 0
      · rw [if_pos h8]
        exact run_shards_full src dst 8 _ _ total hsrc (by norm_num)
          (sub_mod_self_mod _ 8) (slice_le_total total 8)
      · rw [if_neg h8]
        by_cases h4 : srcAddr % 4 = 0 ∧ dstAddr % 4 = 0
        · rw [if_pos h4]
          exact run_shards_full src dst 4 _ _ total hsrc (by norm_num)
            (sub_mod_self_mod _ 4) (slice_le_total total 4)
        · rw [if_neg h4]
          exact run_shards_full src dst 1 _ _ total hsrc (by norm_num)
            (sub_mod_self_mod _ 1) (slice_le_total total 1)

/-- C9: for byte-valued buffers, every branch of `fast_memcpy` (small
byte copy, aligned word copy with byte remainder, 8-way parallel
slices) is extensionally a plain byte-for-byte copy of the first
`total` bytes: the first `total` destination bytes equal the source
bytes and no other destination byte is touched; moreover the parallel
slice sizes sum exactly to `total` and tile the buffer without gap or
overlap (slice `i` starts where slice `i-1` ends and the last slice
ends at `total`). -/
theorem fast_memcpy_refines_byte_copy (hasPool : Bool) (dstAddr srcAddr : Nat)
    (dst src : Nat → Nat) (total : Nat) (hsrc : ∀ i, src i < 256) :
    fast_memcpy hasPool dstAddr srcAddr dst src total = byteCopyAt src dst 0 total ∧
    (∀ i, i < total → fast_memcpy hasPool dstAddr srcAddr dst src total i = src i) ∧
    (∀ i, total ≤ i → fast_memcpy hasPool dstAddr srcAddr dst src total i = dst i) ∧
    (∀ alignment : Nat,
      (vec_slice_size total alignment).length = 8 ∧
      (vec_slice_size total alignment).sum = total ∧
      (∀ i, i < 7 → (vec_slice_size total alignment).getD i 0 =
        total / 8 - total / 8 % alignment) ∧
      7 * (total / 8 - total / 8 % alignment) +
        (vec_slice_size total alignment).getD 7 0 = total) := by
  have heq := fast_memcpy_eq hasPool dstAddr srcAddr dst src total hsrc
  refine ⟨heq, ?_, ?_, ?_⟩
  · intro i hi
    rw [heq]
    simp only [byteCopyAt]
    rw [if_pos (by omega)]
  · intro i hi
    rw [heq]
    simp only [byteCopyAt]
    rw [if_neg (by omega)]
  · intro alignment
    simp only [vec_slice_size]
    have hsl := slice_le_total total alignment
    set s := total / 8 - total / 8 % alignment with hs
    refine ⟨by simp, ?_, ?_, ?_⟩
    · rw [List.sum_append, List.sum_replicate, smul_eq_mul, List.sum_cons, List.sum_nil]
      omega
    · intro i hi
      interval_cases i <;> rfl
    · show 7 * s + (List.replicate 7 s ++ [total - s * 7]).getD 7 0 = total
      have h7 : (List.replicate 7 s ++ [total - s * 7]).getD 7 0 = total - s * 7 := rfl
      rw [h7]
      omega

/-- Closed instance of `fast_memcpy_refines_byte_copy`: a 5-byte copy
moves byte 3 of the source and leaves byte 7 of the destination. -/
theorem fast_memcpy_refines_byte_copy_witness :
    fast_memcpy false 0 0 (fun _ => 9) (fun i => i % 256) 5 3 = 3 ∧
    fast_memcpy false 0 0 (fun _ => 9) (fun i => i % 256) 5 7 = 9 := by
  have h := fast_memcpy_refines_byte_copy false 0 0 (fun _ => 9) (fun i => i % 256) 5
    (fun i => Nat.mod_lt _ (by norm_num))
  exact ⟨(h.2.1 3 (by norm_num)).trans (by norm_num),
    h.2.2.1 7 (by norm_num)⟩

/-! Tensor byte copy (`tensor_memcpy`, tensor_util.cc lines 98-118). -/

/-- Tensor data types, with the three types TensorFlow's
`DataTypeCanUseMemcpy` rejects (variable-length or handle-valued). -/
inductive DataType where
  | DT_FLOAT
  | DT_INT32
  | DT_UINT8
  | DT_STRING
  | DT_RESOURCE
  | DT_VARIANT
deriving DecidableEq, Repr

/-- TensorFlow's `DataTypeCanUseMemcpy`: true exactly for plain-old-data
types. -/
def DataTypeCanUseMemcpy : DataType → Bool
  | .DT_STRING => false
  | .DT_RESOURCE => false
  | .DT_VARIANT => false
  | _ => true

/-- A tensor: its data type and its flat byte content
(`tensor_data()`). -/
structure Tensor where
  dtype : DataType
  data : List Nat
deriving DecidableEq, Repr

/-- A list of bytes as a byte map (reads past the end yield 0; the
in-bounds reads are the only ones the copy performs). -/
def listGet (l : List Nat) : Nat → Nat := fun i => l.getD i 0

/-- Translation of `tensor_memcpy` (tensor_util.cc lines 98-118): an
`Unimplemented` error for non-memcpy types; a negative requested size
defaults to the destination byte size; an `OutOfRange` error when the
effective size exceeds the source or destination; otherwise
`fast_memcpy` copies the effective number of bytes into the tensor. -/
def tensor_memcpy (hasPool : Bool) (dstAddr srcAddr : Nat) (tensor : Tensor)
    (source : List Nat) (memcpy_size : Int) : Except String Tensor :=
  if ¬ DataTypeCanUseMemcpy tensor.dtype then
    .error "Unimplemented: tensor_memcpy on data type is not allowed"
  else
    let dst_size : Int := (tensor.data.length : Int)
    let size : Int := if memcpy_size < 0 then dst_size else memcpy_size
    if size > (source.length : Int) ∨ size > dst_size then
      .error "OutOfRange: unexpected tensor size in tensor_memcpy"
    else
      let d := fast_memcpy hasPool dstAddr srcAddr (listGet tensor.data)
        (listGet source) size.toNat
      .ok { tensor with data := (List.range tensor.data.length).map d }

theorem listGet_lt (l : List Nat) (hb : ∀ b ∈ l, b < 256) : ∀ i, listGet l i < 256 := by
  intro i
  rw [listGet]
  rcases Nat.lt_or_ge i l.length with h | h
  · rw [List.getD_eq_getElem l 0 h]
    exact hb _ (List.getElem_mem h)
  · rw [List.getD_eq_default l 0 h]
    norm_num

theorem range_map_byteCopy (data source : List Nat) (n : Nat)
    (hn1 : n ≤ source.length) (hn2 : n ≤ data.length) :
    (List.range data.length).map (byteCopyAt (listGet source) (listGet data) 0 n) =
      source.take n ++ data.drop n := by
  apply List.ext_getElem
  · simp only [List.length_map, List.length_range, List.length_append,
      List.length_take, List.length_drop]
    omega
  · intro i h1 h2
    rw [List.getElem_map, List.getElem_range]
    simp only [byteCopyAt, listGet]
    simp only [List.length_map, List.length_range] at h1
    by_cases hin : i < n
    · rw [if_pos (by omega)]
      rw [List.getElem_append_left (by simp [List.length_take]; omega)]
      rw [List.getElem_take]
      exact List.getD_eq_getElem source 0 (by omega)
    · rw [if_neg (by omega)]
      rw [List.getElem_append_right (by simp [List.length_take]; omega)]
      simp only [List.length_take]
      rw [List.getElem_drop]
      have harg : n + (i - min n source.length) = i := by omega
      rw [← List.getD_eq_getElem data 0 (by omega)]
      rw [harg]

/-- C10: `tensor_memcpy` returns the `Unimplemented` error exactly when
the destination data type does not support raw memcpy; otherwise, with
a negative requested size defaulting to the destination byte size, it
returns the `OutOfRange` error exactly when the effective size exceeds
the source length or the destination length; in every other case it
succeeds, the first `size` destination bytes become the first `size`
source bytes, the remaining destination bytes are untouched (same
length, same suffix), and the result depends only on the first `size`
source bytes (nothing past the source is read). -/
theorem tensor_memcpy_spec (hasPool : Bool) (dstAddr srcAddr : Nat) (tensor : Tensor)
    (source : List Nat) (memcpy_size : Int)
    (hb : ∀ b ∈ source, b < 256) :
    (tensor_memcpy hasPool dstAddr srcAddr tensor source memcpy_size =
        .error "Unimplemented: tensor_memcpy on data type is not allowed" ↔
      DataTypeCanUseMemcpy tensor.dtype = false) ∧
    (DataTypeCanUseMemcpy tensor.dtype = true →
      ((tensor_memcpy hasPool dstAddr srcAddr tensor source memcpy_size =
          .error "OutOfRange: unexpected tensor size in tensor_memcpy") ↔
        ((if memcpy_size < 0 then (tensor.data.length : Int) else memcpy_size) >
            (source.length : Int) ∨
          (if memcpy_size < 0 then (tensor.data.length : Int) else memcpy_size) >
            (tensor.data.length : Int)))) ∧
    (DataTypeCanUseMemcpy tensor.dtype = true →
      ∀ size : Int,
        size = (if memcpy_size < 0 then (tensor.data.length : Int) else memcpy_size) →
        ¬ (size > (source.length : Int) ∨ size > (tensor.data.length : Int)) →
        tensor_memcpy hasPool dstAddr srcAddr tensor source memcpy_size =
          .ok { tensor with
            data := source.take size.toNat ++ tensor.data.drop size.toNat }) ∧
    (∀ source2 : List Nat, (∀ b ∈ source2, b < 256) →
      source2.length = source.length →
      source2.take
          (if memcpy_size < 0 then (tensor.data.length : Int) else memcpy_size).toNat =
        source.take
          (if memcpy_size < 0 then (tensor.data.length : Int) else memcpy_size).toNat →
      tensor_memcpy hasPool dstAddr srcAddr tensor source2 memcpy_size =
        tensor_memcpy hasPool dstAddr srcAddr tensor source memcpy_size) := by
  have hmain : ∀ (src' : List Nat), (∀ b ∈ src', b < 256) →
      DataTypeCanUseMemcpy tensor.dtype = true →
      ∀ size : Int,
        size = (if memcpy_size < 0 then (tensor.data.length : Int) else memcpy_size) →
        ¬ (size > (src'.length : Int) ∨ size > (tensor.data.length : Int)) →
        tensor_memcpy hasPool dstAddr srcAddr tensor src' memcpy_size =
          .ok { tensor with
            data := src'.take size.toNat ++ tensor.data.drop size.toNat } := by
    intro src' hb' hcan size hsize hok
    rw [tensor_memcpy]
    rw [if_neg (by simp [hcan])]
    dsimp only
    rw [← hsize, if_neg hok]
    rw [fast_memcpy_eq hasPool dstAddr srcAddr (listGet tensor.data) (listGet src')
      size.toNat (listGet_lt src' hb')]
    push_neg at hok
    have hsize0 : 0 ≤ size := by
      rw [hsize]
      by_cases hneg : memcpy_size < 0
      · rw [if_pos hneg]; positivity
      · rw [if_neg hneg]; omega
    rw [range_map_byteCopy tensor.data src' size.toNat (by omega) (by omega)]
  refine ⟨?_, ?_, hmain source hb, ?_⟩
  · constructor
    · intro h
      by_contra hcan
      rw [Bool.not_eq_false] at hcan
      rw [tensor_memcpy, if_neg (by simp [hcan])] at h
      dsimp only at h
      by_cases hoor : (if memcpy_size < 0 then (tensor.data.length : Int) else memcpy_size) >
          (source.length : Int) ∨
          (if memcpy_size < 0 then (tensor.data.length : Int) else memcpy_size) >
            (tensor.data.length : Int)
      · rw [if_pos hoor] at h
        exact absurd (Except.error.inj h) (by decide)
      · rw [if_neg hoor] at h
        exact Except.noConfusion h
    · intro hcan
      rw [tensor_memcpy, if_pos (by simp [hcan])]
  · intro hcan
    constructor
    · intro h
      by_contra hoor
      have := hmain source hb hcan _ rfl hoor
      rw [this] at h
      exact Except.noConfusion h
    · intro hoor
      rw [tensor_memcpy, if_neg (by simp [hcan])]
      dsimp only
      rw [if_pos hoor]
  · intro source2 hb2 hlen htake
    by_cases hcan : DataTypeCanUseMemcpy tensor.dtype = true
    · by_cases hoor : (if memcpy_size < 0 then (tensor.data.length : Int) else memcpy_size) >
          (source.length : Int) ∨
          (if memcpy_size < 0 then (tensor.data.length : Int) else memcpy_size) >
            (tensor.data.length : Int)
      · rw [tensor_memcpy, if_neg (by simp [hcan])]
        dsimp only
        rw [if_pos (by rw [hlen]; exact hoor)]
        rw [tensor_memcpy, if_neg (by simp [hcan])]
        dsimp only
        rw [if_pos hoor]
      · rw [hmain source2 hb2 hcan _ rfl (by rw [hlen]; exact hoor),
          hmain source hb hcan _ rfl hoor, htake]
    · rw [Bool.not_eq_true] at hcan
      rw [tensor_memcpy, if_pos (by simp [hcan]), tensor_memcpy, if_pos (by simp [hcan])]

/-- Closed instance of `tensor_memcpy_spec`: copying 3 bytes into a
5-byte float tensor takes the first 3 source bytes and keeps the last
2 destination bytes. -/
theorem tensor_memcpy_spec_witness :
    tensor_memcpy false 0 0 ⟨.DT_FLOAT, [1, 1, 1, 1, 1]⟩ [7, 8, 9, 10] 3 =
      .ok ⟨.DT_FLOAT, [7, 8, 9, 1, 1]⟩ := by
  have h := (tensor_memcpy_spec false 0 0 ⟨.DT_FLOAT, [1, 1, 1, 1, 1]⟩ [7, 8, 9, 10] 3
    (by decide)).2.2.1 rfl 3 (by norm_num) (by norm_num)
  rw [h]
  rfl

/-! Infer-response status handling (part_000 lines 428-446 and 487-502;
part_001 lines 139-160 and 191-202). -/

/-- Modelled from the spec: the daemon status code for success
(`nrt::nerr::NERR_OK`, from `nerr.pb.h`, which is not part of the
sources). -/
def NERR_OK : Nat := 0

/-- Modelled from the spec: the daemon status code "inference completed
with a numeric anomaly (NaN/Inf)"
(`nrt::nerr::NERR_INFER_COMPLETED_WITH_NUM_ERR`, from `nerr.pb.h`);
only its distinctness from `NERR_OK` matters. -/
def NERR_INFER_COMPLETED_WITH_NUM_ERR : Nat := 1004

/-- An `nrt::infer_response`: its status code and its `ofmap` (named
output buffers). -/
structure InferResponse where
  code : Nat
  ofmap : List (String × List Nat)
deriving DecidableEq, Repr

/-- The protobuf setter `response.mutable_status()->set_code(c)`. -/
def InferResponse.setCode (r : InferResponse) (c : Nat) : InferResponse :=
  { r with code := c }

/-- The "ignore inf/nan errors" block shared by all four synchronous and
wait paths: on transport success, a `NERR_INFER_COMPLETED_WITH_NUM_ERR`
status is rewritten to `NERR_OK` before the status check. -/
def remap_num_err (transportOk : Bool) (r : InferResponse) : InferResponse :=
  if transportOk then
    if r.code = NERR_INFER_COMPLETED_WITH_NUM_ERR then r.setCode NERR_OK else r
  else r

/-- Modelled from the spec: `NRT_CHECK_RETURN` (declared in
`neuron_clib.h`) — succeed iff the transport succeeded and the daemon
status is `NERR_OK`, otherwise return a uniform error naming the
operation. -/
def nrt_check (op : String) (transportOk : Bool) (code : Nat) : Except String Unit :=
  if transportOk ∧ code = NERR_OK then .ok () else .error (op ++ " failure")

/-- Translation of `copy_output_tensors` (part_000 lines 580-604 and
part_001 lines 253-277): build the name-to-buffer map (`emplace` keeps
the first binding of a name, exactly as `List.lookup` returns the first
match), fail on any output name missing from the ofmap, then
`tensor_memcpy` each raw buffer into the corresponding output tensor
(`output_tensors->at(idx)`; an out-of-range index is the `at` failure).
The call sites use the size-defaulted form of `tensor_memcpy`
(`memcpy_size = -1`). -/
def copy_output_tensors (output_tensors : List Tensor) (resp : InferResponse)
    (output_names : List String) : Except String (List Tensor) := do
  let raws ← output_names.mapM (fun nm =>
    match resp.ofmap.lookup nm with
    | none => Except.error ("tensor name" ++ nm ++ " not found in infer_response.ofmap()")
    | some buf => Except.ok buf)
  (List.range output_names.length).mapM (fun idx =>
    match output_tensors[idx]?, raws[idx]? with
    | some t, some raw => tensor_memcpy false 0 0 t raw (-1)
    | _, _ => Except.error "vector::at: index out of range")

/-- Post-RPC processing of `NeuronDevice::infer` (part_000 lines
428-446): remap the numeric-anomaly code on transport success, check the
status, append one ofmap entry per output name from the shared-memory
output buffers when shared memory is enabled, then copy the outputs. -/
def NeuronDevice.infer_processResponse (transportOk : Bool) (resp : InferResponse)
    (shmEnabled : Bool) (shmOutBufs : List (List Nat))
    (output_names : List String) (output_tensors : List Tensor) :
    Except String (List Tensor) :=
  let resp1 := remap_num_err transportOk resp
  match nrt_check "infer" transportOk resp1.code with
  | .error e => .error e
  | .ok _ =>
    let resp2 := if shmEnabled then
        { resp1 with ofmap := resp1.ofmap ++ output_names.zip shmOutBufs }
      else resp1
    copy_output_tensors output_tensors resp2 output_names

/-- Post-RPC processing of `NeuronDevice::infer_wait` (part_000 lines
487-502): remap, check, copy. -/
def NeuronDevice.infer_wait_processResponse (transportOk : Bool) (resp : InferResponse)
    (output_names : List String) (output_tensors : List Tensor) :
    Except String (List Tensor) :=
  let resp1 := remap_num_err transportOk resp
  match nrt_check "infer_wait" transportOk resp1.code with
  | .error e => .error e
  | .ok _ => copy_output_tensors output_tensors resp1 output_names

/-- Post-RPC processing of `RuntimeGRPC::infer` (part_001 lines
139-160): as `NeuronDevice::infer`, except that output copying is
skipped when the caller passed no output-tensor vector. -/
def RuntimeGRPC.infer_processResponse (transportOk : Bool) (resp : InferResponse)
    (shmEnabled : Bool) (shmOutBufs : List (List Nat))
    (output_names : List String) (output_tensors : Option (List Tensor)) :
    Except String (Option (List Tensor)) :=
  let resp1 := remap_num_err transportOk resp
  match nrt_check "infer" transportOk resp1.code with
  | .error e => .error e
  | .ok _ =>
    let resp2 := if shmEnabled then
        { resp1 with ofmap := resp1.ofmap ++ output_names.zip shmOutBufs }
      else resp1
    match output_tensors with
    | none => .ok none
    | some ts => (copy_output_tensors ts resp2 output_names).map some

/-- Post-RPC processing of `RuntimeGRPC::infer_wait` (part_001 lines
191-202): remap, check, copy. -/
def RuntimeGRPC.infer_wait_processResponse (transportOk : Bool) (resp : InferResponse)
    (output_names : List String) (output_tensors : List Tensor) :
    Except String (List Tensor) :=
  let resp1 := remap_num_err transportOk resp
  match nrt_check "infer_wait" transportOk resp1.code with
  | .error e => .error e
  | .ok _ => copy_output_tensors output_tensors resp1 output_names

/-- C4: on every synchronous and wait path (`NeuronDevice::infer`,
`NeuronDevice::infer_wait`, `RuntimeGRPC::infer`,
`RuntimeGRPC::infer_wait`), when the RPC transport succeeds, a response
whose status code is the numeric-anomaly code is processed identically
to the same response with the OK code: the remap rewrites the code to
`NERR_OK` before the status check, so the check passes and the outputs
are copied exactly as for an ordinary OK response. -/
theorem infer_num_err_remap (resp : InferResponse) (shmEnabled : Bool)
    (shmOutBufs : List (List Nat)) (output_names : List String)
    (output_tensors : List Tensor) (opt_tensors : Option (List Tensor)) :
    (remap_num_err true (resp.setCode NERR_INFER_COMPLETED_WITH_NUM_ERR) =
      resp.setCode NERR_OK) ∧
    nrt_check "infer" true
      (remap_num_err true (resp.setCode NERR_INFER_COMPLETED_WITH_NUM_ERR)).code =
      .ok () ∧
    NeuronDevice.infer_processResponse true
        (resp.setCode NERR_INFER_COMPLETED_WITH_NUM_ERR) shmEnabled shmOutBufs
        output_names output_tensors =
      NeuronDevice.infer_processResponse true (resp.setCode NERR_OK) shmEnabled
        shmOutBufs output_names output_tensors ∧
    NeuronDevice.infer_wait_processResponse true
        (resp.setCode NERR_INFER_COMPLETED_WITH_NUM_ERR) output_names output_tensors =
      NeuronDevice.infer_wait_processResponse true (resp.setCode NERR_OK)
        output_names output_tensors ∧
    RuntimeGRPC.infer_processResponse true
        (resp.setCode NERR_INFER_COMPLETED_WITH_NUM_ERR) shmEnabled shmOutBufs
        output_names opt_tensors =
      RuntimeGRPC.infer_processResponse true (resp.setCode NERR_OK) shmEnabled
        shmOutBufs output_names opt_tensors ∧
    RuntimeGRPC.infer_wait_processResponse true
        (resp.setCode NERR_INFER_COMPLETED_WITH_NUM_ERR) output_names output_tensors =
      RuntimeGRPC.infer_wait_processResponse true (resp.setCode NERR_OK)
        output_names output_tensors := by
  have hremap : remap_num_err true (resp.setCode NERR_INFER_COMPLETED_WITH_NUM_ERR) =
      resp.setCode NERR_OK := by
    simp [remap_num_err, InferResponse.setCode]
  have hremap_ok : remap_num_err true (resp.setCode NERR_OK) = resp.setCode NERR_OK := by
    simp [remap_num_err, InferResponse.setCode, NERR_OK,
      NERR_INFER_COMPLETED_WITH_NUM_ERR]
  refine ⟨hremap, ?_, ?_, ?_, ?_, ?_⟩
  · rw [hremap]
    simp [nrt_check, InferResponse.setCode, NERR_OK]
  · rw [NeuronDevice.infer_processResponse, NeuronDevice.infer_processResponse,
      hremap, hremap_ok]
  · rw [NeuronDevice.infer_wait_processResponse, NeuronDevice.infer_wait_processResponse,
      hremap, hremap_ok]
  · rw [RuntimeGRPC.infer_processResponse, RuntimeGRPC.infer_processResponse,
      hremap, hremap_ok]
  · rw [RuntimeGRPC.infer_wait_processResponse, RuntimeGRPC.infer_wait_processResponse,
      hremap, hremap_ok]

end AwsNeuron
